import Mathlib

/-!
Verification of the nostrdb command-line front-end (src/ndb.c): the query
filter construction state machine, the command dispatch, the search option
scan and the stats report, embedded shallowly and proved against the
specification's claims.

The filter-builder collaborator (the ndb_filter_* operations of the nostrdb
library) is not part of the surveyed source; its operations are modelled from
the specification's interface contract and marked as such in their doc
comments. Everything else is translated directly from src/ndb.c.
-/

set_option autoImplicit false

namespace Ndb

/-- Digit-accumulation core of the C atoi/atol/atoll model: consume leading
decimal digits, stopping at the first non-digit character. -/
def atoiDigits : List Char → Int → Int
  | [], acc => acc
  | c :: cs, acc =>
    if c.isDigit then atoiDigits cs (acc * 10 + ((c.toNat : Int) - 48)) else acc

/-- C isspace in the default locale. -/
def isSpaceChar (c : Char) : Bool :=
  c = ' ' || c = '\t' || c = '\n' || c = '\x0b' || c = '\x0c' || c = '\r'

/-- Model of C atoll: skip leading whitespace, an optional sign, then decimal
digits; yields 0 when no digits are present. -/
def atoll (s : String) : Int :=
  match s.toList.dropWhile isSpaceChar with
  | '-' :: cs => - atoiDigits cs 0
  | '+' :: cs => atoiDigits cs 0
  | cs => atoiDigits cs 0

/-- C atol, identical to atoll at this level of modelling (width only). -/
def atol (s : String) : Int := atoll s

/-- C atoi, identical to atoll at this level of modelling (width only). -/
def atoi (s : String) : Int := atoll s

/-- Filter field discriminants used by ndb.c: NDB_FILTER_KINDS,
NDB_FILTER_LIMIT, NDB_FILTER_UNTIL, and the tag field opened through
ndb_filter_start_tag_field. Modelled from the spec: the discriminant set is
closed; the C enum values are nonzero and distinct, so the int variable
current_field (0 meaning none) is modelled as an Option over this type. -/
inductive FieldKind
  | kinds
  | limit
  | untilK
  | tag
  deriving DecidableEq

/-- A typed element of a filter field (integer or string). -/
inductive Elem
  | int (i : Int)
  | str (s : String)
  deriving DecidableEq

/-- One filter field: its discriminant, the tag letter for TAG fields, and its
ordered elements. -/
structure Field where
  kind : FieldKind
  tag : Option Char
  elems : List Elem
  deriving DecidableEq

/-- The filter builder: the closed fields in order, the at-most-one open
field, and a flag recording that no field-exclusivity contract violation
(opening a field while another is open) has occurred. The flag starts true
and is never set back to true, so a final true value certifies the invariant
at every intermediate point. -/
structure Builder where
  fields : List Field
  opened : Option Field
  okExcl : Bool
  deriving DecidableEq

/-- Modelled from the spec: ndb_filter_init (nostrdb library, not under src/)
creates an empty filter with no open field. -/
def ndb_filter_init : Builder := ⟨[], none, true⟩

/-- Modelled from the spec: ndb_filter_start_field opens a field; opening
while another field is open is a contract violation (the spec says it fails,
or is a no-op guarded by the caller), recorded here by clearing okExcl and
leaving the builder otherwise unchanged. -/
def ndb_filter_start_field (b : Builder) (k : FieldKind) : Builder :=
  match b.opened with
  | none => { b with opened := some ⟨k, none, []⟩ }
  | some _ => { b with okExcl := false }

/-- Modelled from the spec: ndb_filter_start_tag_field is start_field
specialized to a TAG field, additionally recording the tag letter. -/
def ndb_filter_start_tag_field (b : Builder) (c : Char) : Builder :=
  match b.opened with
  | none => { b with opened := some ⟨FieldKind.tag, some c, []⟩ }
  | some _ => { b with okExcl := false }

/-- Modelled from the spec: ndb_filter_add_int_element appends an integer
element to the currently open field; with no open field it is a contract
violation the driver never commits, modelled as a no-op. -/
def ndb_filter_add_int_element (b : Builder) (v : Int) : Builder :=
  match b.opened with
  | none => b
  | some o => { b with opened := some { o with elems := o.elems ++ [Elem.int v] } }

/-- Modelled from the spec: ndb_filter_add_str_element appends a string
element to the currently open field; no-op without an open field. -/
def ndb_filter_add_str_element (b : Builder) (v : String) : Builder :=
  match b.opened with
  | none => b
  | some o => { b with opened := some { o with elems := o.elems ++ [Elem.str v] } }

/-- Modelled from the spec: ndb_filter_end_field closes the currently open
field, appending it to the filter's field list; with no open field it is a
no-op. -/
def ndb_filter_end_field (b : Builder) : Builder :=
  match b.opened with
  | none => b
  | some o => ⟨b.fields ++ [o], none, b.okExcl⟩

/-- State of the query token scan in main (src/ndb.c lines 196-244): the
filter builder plus the int variable current_field (0 modelled as none). -/
structure ScanState where
  builder : Builder
  current_field : Option FieldKind
  deriving DecidableEq

/-- Scan state right after ndb_filter_init and current_field = 0
(ndb.c lines 192, 196). -/
def initScanState : ScanState := ⟨ndb_filter_init, none⟩

/-- The shared pattern: if (current_field) then ndb_filter_end_field and
current_field = 0 (ndb.c lines 208-211, 219-222, 229-232). -/
def closeOpenField (st : ScanState) : ScanState :=
  if st.current_field ≠ none then ScanState.mk (ndb_filter_end_field st.builder) none
  else st

/-- The -k branch (ndb.c lines 199-205): open KINDS unless it is already the
current field, mark KINDS current, append the parsed integer. -/
def stepK (st : ScanState) (v : String) : ScanState :=
  ScanState.mk
    (ndb_filter_add_int_element
      (if st.current_field ≠ some FieldKind.kinds
        then ndb_filter_start_field st.builder FieldKind.kinds
        else st.builder)
      (atoll v))
    (some FieldKind.kinds)

/-- The -l branch (ndb.c lines 206-217): close any open field, open LIMIT,
append the value, close it; current_field is left set to LIMIT. -/
def stepL (st : ScanState) (v : String) : ScanState :=
  ScanState.mk
    (ndb_filter_end_field
      (ndb_filter_add_int_element
        (ndb_filter_start_field (closeOpenField st).builder FieldKind.limit)
        (atol v)))
    (some FieldKind.limit)

/-- The -u branch (ndb.c lines 218-227): close any open field, open UNTIL,
append the value, close it; current_field is not set to UNTIL. -/
def stepU (st : ScanState) (v : String) : ScanState :=
  ScanState.mk
    (ndb_filter_end_field
      (ndb_filter_add_int_element
        (ndb_filter_start_field (closeOpenField st).builder FieldKind.untilK)
        (atoll v)))
    (closeOpenField st).current_field

/-- The -t branch (ndb.c lines 228-238): close any open field, open a TAG
field keyed by the letter t, append the string value, close it. -/
def stepT (st : ScanState) (v : String) : ScanState :=
  ScanState.mk
    (ndb_filter_end_field
      (ndb_filter_add_str_element
        (ndb_filter_start_tag_field (closeOpenField st).builder 't')
        v))
    (closeOpenField st).current_field

/-- The token scan loop of the query command, for (i = 0; argc and i < 100;
i++) at ndb.c line 198, with fuel the remaining iteration budget (100 - i).
Reading a flag's value when no token remains dereferences the argument
vector's NULL sentinel in C (undefined behavior), modelled as none. An
unrecognized token is not consumed: only the iteration counter advances. -/
def scanLoop : Nat → ScanState → List String → Option ScanState
  | 0, st, _ => some st
  | _ + 1, st, [] => some st
  | fuel + 1, st, [t] =>
    if t = "-k" ∨ t = "-l" ∨ t = "-u" ∨ t = "-t" then none
    else scanLoop fuel st [t]
  | fuel + 1, st, t :: v :: rest =>
    if t = "-k" then scanLoop fuel (stepK st v) rest
    else if t = "-l" then scanLoop fuel (stepL st v) rest
    else if t = "-u" then scanLoop fuel (stepU st v) rest
    else if t = "-t" then scanLoop fuel (stepT st v) rest
    else scanLoop fuel st (t :: v :: rest)

/-- The defensive close after the scan (ndb.c lines 241-244). -/
def finalClose (st : ScanState) : Builder :=
  if st.current_field ≠ none then ndb_filter_end_field st.builder else st.builder

/-- The filter submitted to ndb_query (ndb.c line 250) for a token list: scan
up to 100 flag groups starting from an empty filter, then defensively close. -/
def queryFilter (ts : List String) : Option (List Field) :=
  (scanLoop 100 initScanState ts).map fun st => (finalClose st).fields

/-- The token list of a run of consecutive -k groups with the given values. -/
def kTokens : List String → List String
  | [] => []
  | v :: vs => "-k" :: v :: kTokens vs

/-- The commands main dispatches to, with the tokens each branch consumes. -/
inductive Cmd
  | search (rest : List String)
  | stat
  | query (rest : List String)
  | cmdImport (file : String)
  | printSearchKeys
  | printKindKeys
  | printTagKeys
  | usage
  deriving DecidableEq

/-- Command dispatch of main (ndb.c lines 126-284), applied to argv (program
name included) after the global-option stripping loop of lines 132-143: the
if-else chain keyed on argv[1] and argc. Unknown commands, wrong arities and
argc < 2 all fall through to usage() (exit 1). -/
def dispatch (argv : List String) : Cmd :=
  match argv with
  | _ :: cmd :: rest =>
    if cmd = "search" ∧ 1 ≤ rest.length then Cmd.search rest
    else if cmd = "stat" ∧ rest.length = 0 then Cmd.stat
    else if cmd = "query" ∧ 1 ≤ rest.length then Cmd.query rest
    else if cmd = "import" ∧ rest.length = 1 then Cmd.cmdImport (rest.headD "")
    else if cmd = "print-search-keys" ∧ rest.length = 0 then Cmd.printSearchKeys
    else if cmd = "print-kind-keys" ∧ rest.length = 0 then Cmd.printKindKeys
    else if cmd = "print-tag-keys" ∧ rest.length = 0 then Cmd.printTagKeys
    else Cmd.usage
  | _ => Cmd.usage

/-- Observable collaborator calls made by the key-printing command branches. -/
inductive Eff
  | beginTxn
  | endTxn
  | printSearchKeysCall
  | printKindKeysCall
  | printTagKeysCall
  | destroyCall
  deriving DecidableEq

/-- Execution model of the three key-printing command branches and of usage
(ndb.c lines 270-284 and 286): begin a read transaction, call the matching
key-printing collaborator, end the transaction, destroy the store, and return
0 from main; usage returns 1. Commands whose behavior depends on store
contents are not modelled here (none). -/
def printKeysRun : Cmd → Option (List Eff × Nat)
  | Cmd.printSearchKeys =>
    some ([Eff.beginTxn, Eff.printSearchKeysCall, Eff.endTxn, Eff.destroyCall], 0)
  | Cmd.printKindKeys =>
    some ([Eff.beginTxn, Eff.printKindKeysCall, Eff.endTxn, Eff.destroyCall], 0)
  | Cmd.printTagKeys =>
    some ([Eff.beginTxn, Eff.printTagKeysCall, Eff.endTxn, Eff.destroyCall], 0)
  | Cmd.usage => some ([], 1)
  | _ => none

/-- Text-search result ordering. -/
inductive NdbOrder
  | ascending
  | descending
  deriving DecidableEq

/-- The text search configuration consumed by ndb_text_search. -/
structure ndb_text_search_config where
  order : NdbOrder
  limit : Option Int
  deriving DecidableEq

/-- Modelled from the spec: ndb_default_text_search_config (nostrdb library,
not under src/) defaults to descending, newest-first order, with an
implementation-defined default limit modelled as none. -/
def ndb_default_text_search_config : ndb_text_search_config :=
  ⟨NdbOrder.descending, none⟩

/-- Modelled from the spec: setter for the search result ordering. -/
def ndb_text_search_config_set_order (c : ndb_text_search_config) (o : NdbOrder) :
    ndb_text_search_config :=
  { c with order := o }

/-- Modelled from the spec: setter for the search result limit. -/
def ndb_text_search_config_set_limit (c : ndb_text_search_config) (l : Int) :
    ndb_text_search_config :=
  { c with limit := some l }

/-- One iteration of the search option loop (ndb.c lines 154-165), reading
argv[2] of the currently shifted argv; reading past the end of the token list
(the NULL sentinel, at argv[2] or at argv[3] for a value-taking option) is
undefined behavior in C, modelled as none. -/
def searchOptStep (c : ndb_text_search_config) :
    List String → Option (ndb_text_search_config × List String)
  | [] => none
  | [t] =>
    if t = "--oldest-first" then
      some (ndb_text_search_config_set_order c NdbOrder.ascending, [])
    else if t = "--limit" ∨ t = "-l" then none
    else some (c, [t])
  | t :: v :: rest =>
    if t = "--oldest-first" then
      some (ndb_text_search_config_set_order c NdbOrder.ascending, v :: rest)
    else if t = "--limit" ∨ t = "-l" then
      some (ndb_text_search_config_set_limit c (atoi v), rest)
    else some (c, t :: v :: rest)

/-- The search option scan: exactly two iterations (for i in 0..2, ndb.c line
154) starting from the default configuration, over the tokens after the
search command word. -/
def parseSearchConfig (ts : List String) :
    Option (ndb_text_search_config × List String) :=
  (searchOptStep ndb_default_text_search_config ts).bind fun p =>
    searchOptStep p.1 p.2

/-- The per-category counters of the stats report (struct ndb_stat_counts). -/
structure ndb_stat_counts where
  count : Nat
  key_size : Nat
  value_size : Nat
  deriving DecidableEq

/-- The kinds section of print_stats (ndb.c lines 77-85): iterate the common
kind counters in index order, skipping counters whose count is 0; each emitted
line is the pair of the kind index and its counters. -/
def kindsSectionAux : Nat → List ndb_stat_counts → List (Nat × ndb_stat_counts)
  | _, [] => []
  | i, c :: cs =>
    if c.count = 0 then kindsSectionAux (i + 1) cs
    else (i, c) :: kindsSectionAux (i + 1) cs

/-- The kind lines emitted by print_stats for the common-kind counter array. -/
def kindsSection (common_kinds : List ndb_stat_counts) : List (Nat × ndb_stat_counts) :=
  kindsSectionAux 0 common_kinds

/-- The trailing other line of print_stats (ndb.c lines 87-90): emitted only
when other_kinds.count is nonzero. -/
def otherLine (other_kinds : ndb_stat_counts) : Option ndb_stat_counts :=
  if other_kinds.count ≠ 0 then some other_kinds else none

/-- Scan-loop invariant: at most one field is open; the only field ever left
open across iterations is a KINDS field (with current_field marking it), and
otherwise no field is open while current_field is either 0 or the stale LIMIT
marker the -l branch leaves behind. -/
def ScanInv (st : ScanState) : Prop :=
  (st.builder.opened = none ∧
    (st.current_field = none ∨ st.current_field = some FieldKind.limit))
  ∨ (∃ o, st.builder.opened = some o ∧ o.kind = FieldKind.kinds ∧
      st.current_field = some FieldKind.kinds)

/-- The invariant together with a clean exclusivity flag. -/
def GoodState (st : ScanState) : Prop :=
  ScanInv st ∧ st.builder.okExcl = true

lemma start_field_none {b : Builder} (k : FieldKind) (h : b.opened = none) :
    ndb_filter_start_field b k = { b with opened := some ⟨k, none, []⟩ } := by
  unfold ndb_filter_start_field
  rw [h]

lemma start_tag_field_none {b : Builder} (c : Char) (h : b.opened = none) :
    ndb_filter_start_tag_field b c
      = { b with opened := some ⟨FieldKind.tag, some c, []⟩ } := by
  unfold ndb_filter_start_tag_field
  rw [h]

lemma add_int_some {b : Builder} {o : Field} (v : Int) (h : b.opened = some o) :
    ndb_filter_add_int_element b v
      = { b with opened := some { o with elems := o.elems ++ [Elem.int v] } } := by
  unfold ndb_filter_add_int_element
  rw [h]

lemma add_str_some {b : Builder} {o : Field} (v : String) (h : b.opened = some o) :
    ndb_filter_add_str_element b v
      = { b with opened := some { o with elems := o.elems ++ [Elem.str v] } } := by
  unfold ndb_filter_add_str_element
  rw [h]

lemma end_field_none {b : Builder} (h : b.opened = none) :
    ndb_filter_end_field b = b := by
  unfold ndb_filter_end_field
  rw [h]

lemma end_field_some {b : Builder} {o : Field} (h : b.opened = some o) :
    ndb_filter_end_field b = ⟨b.fields ++ [o], none, b.okExcl⟩ := by
  unfold ndb_filter_end_field
  rw [h]

lemma end_field_okExcl (b : Builder) :
    (ndb_filter_end_field b).okExcl = b.okExcl := by
  cases h : b.opened with
  | none => rw [end_field_none h]
  | some o => rw [end_field_some h]

lemma end_field_opened_none (b : Builder) (h : b.opened = none) :
    (ndb_filter_end_field b).opened = none := by
  rw [end_field_none h, h]

/-- After the shared close-if-open pattern, no field is open, current_field is
cleared, the exclusivity flag is untouched, and the closed fields are the old
ones with the previously open field (if any) appended. -/
lemma closeOpenField_good {st : ScanState} (h : GoodState st) :
    (closeOpenField st).builder.opened = none
    ∧ (closeOpenField st).current_field = none
    ∧ (closeOpenField st).builder.okExcl = true := by
  obtain ⟨hinv, hok⟩ := h
  unfold closeOpenField
  rcases hinv with ⟨hop, hcf | hcf⟩ | ⟨o, hop, hk, hcf⟩
  · rw [if_neg (by simp [hcf])]
    exact ⟨hop, hcf, hok⟩
  · rw [if_pos (by simp [hcf])]
    exact ⟨end_field_opened_none _ hop, rfl, by rw [end_field_okExcl]; exact hok⟩
  · rw [if_pos (by simp [hcf])]
    refine ⟨?_, rfl, ?_⟩
    · rw [end_field_some hop]
    · rw [end_field_okExcl]; exact hok

/-- The closed fields after closeOpenField: unchanged when no field was open,
the open field flushed when one was. -/
lemma closeOpenField_fields_of_opened_none {st : ScanState}
    (h : st.builder.opened = none) :
    (closeOpenField st).builder.fields = st.builder.fields := by
  unfold closeOpenField
  by_cases hc : st.current_field ≠ none
  · rw [if_pos hc]
    rw [end_field_none h]
  · rw [if_neg hc]

lemma stepK_good {st : ScanState} (v : String) (h : GoodState st) :
    GoodState (stepK st v) := by
  obtain ⟨hinv, hok⟩ := h
  unfold stepK
  rcases hinv with ⟨hop, hcf⟩ | ⟨o, hop, hk, hcf⟩
  · have hne : st.current_field ≠ some FieldKind.kinds := by
      rcases hcf with h1 | h1 <;> simp [h1]
    rw [if_pos hne, start_field_none _ hop,
      add_int_some (o := ⟨FieldKind.kinds, none, []⟩) _ rfl]
    exact ⟨Or.inr ⟨_, rfl, rfl, rfl⟩, hok⟩
  · rw [if_neg (by simp [hcf]), add_int_some _ hop]
    exact ⟨Or.inr ⟨_, rfl, hk, rfl⟩, hok⟩

/-- The -l branch leaves no field open, leaves the stale LIMIT marker in
current_field, keeps the flag clean, and appends one LIMIT field holding the
parsed value after the fields flushed by the close. -/
lemma stepL_spec {st : ScanState} (v : String) (h : GoodState st) :
    (stepL st v).builder.opened = none
    ∧ (stepL st v).current_field = some FieldKind.limit
    ∧ (stepL st v).builder.okExcl = true
    ∧ (stepL st v).builder.fields
      = (closeOpenField st).builder.fields
        ++ [⟨FieldKind.limit, none, [Elem.int (atol v)]⟩] := by
  obtain ⟨hop1, _hcf1, hok1⟩ := closeOpenField_good h
  unfold stepL
  rw [start_field_none _ hop1,
    add_int_some (o := ⟨FieldKind.limit, none, []⟩) _ rfl,
    end_field_some (o := ⟨FieldKind.limit, none, [Elem.int (atol v)]⟩) rfl]
  exact ⟨rfl, rfl, hok1, rfl⟩

lemma stepL_good {st : ScanState} (v : String) (h : GoodState st) :
    GoodState (stepL st v) := by
  obtain ⟨h1, h2, h3, _h4⟩ := stepL_spec v h
  exact ⟨Or.inl ⟨h1, Or.inr h2⟩, h3⟩

/-- The -u branch leaves no field open, clears current_field, keeps the flag
clean, and appends one UNTIL field holding the parsed value. -/
lemma stepU_spec {st : ScanState} (v : String) (h : GoodState st) :
    (stepU st v).builder.opened = none
    ∧ (stepU st v).current_field = none
    ∧ (stepU st v).builder.okExcl = true
    ∧ (stepU st v).builder.fields
      = (closeOpenField st).builder.fields
        ++ [⟨FieldKind.untilK, none, [Elem.int (atoll v)]⟩] := by
  obtain ⟨hop1, hcf1, hok1⟩ := closeOpenField_good h
  unfold stepU
  rw [start_field_none _ hop1,
    add_int_some (o := ⟨FieldKind.untilK, none, []⟩) _ rfl,
    end_field_some (o := ⟨FieldKind.untilK, none, [Elem.int (atoll v)]⟩) rfl]
  exact ⟨rfl, hcf1, hok1, rfl⟩

lemma stepU_good {st : ScanState} (v : String) (h : GoodState st) :
    GoodState (stepU st v) := by
  obtain ⟨h1, h2, h3, _h4⟩ := stepU_spec v h
  exact ⟨Or.inl ⟨h1, Or.inl h2⟩, h3⟩

/-- The -t branch leaves no field open, clears current_field, keeps the flag
clean, and appends one TAG field keyed by the letter t holding the string. -/
lemma stepT_spec {st : ScanState} (v : String) (h : GoodState st) :
    (stepT st v).builder.opened = none
    ∧ (stepT st v).current_field = none
    ∧ (stepT st v).builder.okExcl = true
    ∧ (stepT st v).builder.fields
      = (closeOpenField st).builder.fields
        ++ [⟨FieldKind.tag, some 't', [Elem.str v]⟩] := by
  obtain ⟨hop1, hcf1, hok1⟩ := closeOpenField_good h
  unfold stepT
  rw [start_tag_field_none _ hop1,
    add_str_some (o := ⟨FieldKind.tag, some 't', []⟩) _ rfl,
    end_field_some (o := ⟨FieldKind.tag, some 't', [Elem.str v]⟩) rfl]
  exact ⟨rfl, hcf1, hok1, rfl⟩

lemma stepT_good {st : ScanState} (v : String) (h : GoodState st) :
    GoodState (stepT st v) := by
  obtain ⟨h1, h2, h3, _h4⟩ := stepT_spec v h
  exact ⟨Or.inl ⟨h1, Or.inl h2⟩, h3⟩

/-- The scan loop preserves the invariant and the clean exclusivity flag. -/
lemma scanLoop_good : ∀ (fuel : Nat) (ts : List String) (st st' : ScanState),
    GoodState st → scanLoop fuel st ts = some st' → GoodState st' := by
  intro fuel
  induction fuel with
  | zero =>
    intro ts st st' hg h
    unfold scanLoop at h
    cases h
    exact hg
  | succ f ih =>
    intro ts st st' hg h
    match ts with
    | [] =>
      unfold scanLoop at h
      cases h
      exact hg
    | [t] =>
      unfold scanLoop at h
      split_ifs at h with h1
      exact ih [t] st st' hg h
    | t :: v :: rest =>
      unfold scanLoop at h
      split_ifs at h with h1 h2 h3 h4
      · exact ih rest _ st' (stepK_good v hg) h
      · exact ih rest _ st' (stepL_good v hg) h
      · exact ih rest _ st' (stepU_good v hg) h
      · exact ih rest _ st' (stepT_good v hg) h
      · exact ih (t :: v :: rest) st st' hg h

lemma initScanState_good : GoodState initScanState :=
  ⟨Or.inl ⟨rfl, Or.inl rfl⟩, rfl⟩

/-- An unrecognized token is never consumed: the loop spins on it, advancing
only the iteration counter, until the iteration budget runs out, leaving the
state untouched and every later token unprocessed. -/
lemma scanLoop_unknown_stall : ∀ (fuel : Nat) (st : ScanState) (u : String)
    (rest : List String), u ≠ "-k" → u ≠ "-l" → u ≠ "-u" → u ≠ "-t" →
    scanLoop fuel st (u :: rest) = some st := by
  intro fuel
  induction fuel with
  | zero => intro st u rest _ _ _ _; rfl
  | succ f ih =>
    intro st u rest h1 h2 h3 h4
    match rest with
    | [] =>
      unfold scanLoop
      rw [if_neg (by simp [h1, h2, h3, h4])]
      exact ih st u [] h1 h2 h3 h4
    | v :: rest2 =>
      unfold scanLoop
      rw [if_neg h1, if_neg h2, if_neg h3, if_neg h4]
      exact ih st u (v :: rest2) h1 h2 h3 h4

/-- Scanning a run of -k groups from a state whose open field is KINDS keeps
that single open field and appends the parsed values to it in order. -/
lemma scanLoop_kinds_run : ∀ (vs : List String) (fuel : Nat) (flds : List Field)
    (tg : Option Char) (es : List Elem) (ok : Bool), vs.length ≤ fuel →
    scanLoop fuel ⟨⟨flds, some ⟨FieldKind.kinds, tg, es⟩, ok⟩, some FieldKind.kinds⟩
      (kTokens vs)
      = some ⟨⟨flds, some ⟨FieldKind.kinds, tg,
          es ++ vs.map fun v => Elem.int (atoll v)⟩, ok⟩, some FieldKind.kinds⟩ := by
  intro vs
  induction vs with
  | nil =>
    intro fuel flds tg es ok _
    cases fuel <;> simp [scanLoop, kTokens]
  | cons v vs ih =>
    intro fuel flds tg es ok hlen
    cases fuel with
    | zero => exact absurd hlen (by simp)
    | succ f =>
      have hs : stepK ⟨⟨flds, some ⟨FieldKind.kinds, tg, es⟩, ok⟩, some FieldKind.kinds⟩ v
          = ⟨⟨flds, some ⟨FieldKind.kinds, tg, es ++ [Elem.int (atoll v)]⟩, ok⟩,
              some FieldKind.kinds⟩ := by
        unfold stepK
        rw [if_neg (by simp), add_int_some (o := ⟨FieldKind.kinds, tg, es⟩) _ rfl]
      rw [kTokens]
      unfold scanLoop
      rw [if_pos rfl, hs, ih f flds tg (es ++ [Elem.int (atoll v)]) ok (by simpa using hlen)]
      simp [List.append_assoc]

/-- Every line the kinds section emits has a nonzero count. -/
lemma kindsSectionAux_count_ne : ∀ (cs : List ndb_stat_counts) (j i : Nat)
    (c : ndb_stat_counts), (i, c) ∈ kindsSectionAux j cs → c.count ≠ 0 := by
  intro cs
  induction cs with
  | nil =>
    intro j i c h
    exact absurd h (by simp [kindsSectionAux])
  | cons c0 cs ih =>
    intro j i c h
    unfold kindsSectionAux at h
    split_ifs at h with h0
    · exact ih (j + 1) i c h
    · rcases List.mem_cons.mp h with h1 | h1
      · simp only [Prod.mk.injEq] at h1
        obtain ⟨-, rfl⟩ := h1
        exact h0
      · exact ih (j + 1) i c h1

/-- Every counter with nonzero count gets its line in the kinds section. -/
lemma kindsSectionAux_mem : ∀ (cs : List ndb_stat_counts) (j i : Nat)
    (h : i < cs.length), (cs.get ⟨i, h⟩).count ≠ 0 →
    (j + i, cs.get ⟨i, h⟩) ∈ kindsSectionAux j cs := by
  intro cs
  induction cs with
  | nil =>
    intro j i h
    exact absurd h (by simp)
  | cons c0 cs ih =>
    intro j i h hc
    cases i with
    | zero =>
      unfold kindsSectionAux
      rw [if_neg (by simpa using hc)]
      simp
    | succ i =>
      unfold kindsSectionAux
      have hx := ih (j + 1) i (by simpa using h) (by simpa using hc)
      have hidx : j + (i + 1) = (j + 1) + i := by omega
      rw [hidx]
      split_ifs with h0
      · simpa using hx
      · exact List.mem_cons_of_mem _ (by simpa using hx)

/-- A search option step that sees no oldest-first token leaves the ordering
unchanged and only consumes tokens from the front of its input. -/
lemma searchOptStep_no_oldest {c c' : ndb_text_search_config} {ts r : List String}
    (hmem : "--oldest-first" ∉ ts) (h : searchOptStep c ts = some (c', r)) :
    c'.order = c.order ∧ r ⊆ ts := by
  match ts with
  | [] => exact absurd h (by simp [searchOptStep])
  | [t] =>
    simp only [searchOptStep] at h
    split_ifs at h with h1 h2
    · subst h1
      exact absurd (List.mem_cons_self _ _) hmem
    · simp only [Option.some.injEq, Prod.mk.injEq] at h
      obtain ⟨rfl, rfl⟩ := h
      exact ⟨rfl, fun x hx => hx⟩
  | t :: v :: rest =>
    simp only [searchOptStep] at h
    split_ifs at h with h1 h2
    · subst h1
      exact absurd (List.mem_cons_self _ _) hmem
    · simp only [Option.some.injEq, Prod.mk.injEq] at h
      obtain ⟨rfl, rfl⟩ := h
      refine ⟨rfl, fun x hx => ?_⟩
      exact List.mem_cons_of_mem _ (List.mem_cons_of_mem _ hx)
    · simp only [Option.some.injEq, Prod.mk.injEq] at h
      obtain ⟨rfl, rfl⟩ := h
      exact ⟨rfl, fun x hx => hx⟩

/-- No search option step ever sets the ordering back to descending. -/
lemma searchOptStep_order_mono {c c' : ndb_text_search_config} {ts r : List String}
    (h : searchOptStep c ts = some (c', r)) (ha : c.order = NdbOrder.ascending) :
    c'.order = NdbOrder.ascending := by
  match ts with
  | [] => exact absurd h (by simp [searchOptStep])
  | [t] =>
    simp only [searchOptStep] at h
    split_ifs at h with h1 h2
    · simp only [Option.some.injEq, Prod.mk.injEq] at h
      obtain ⟨rfl, rfl⟩ := h
      rfl
    · simp only [Option.some.injEq, Prod.mk.injEq] at h
      obtain ⟨rfl, rfl⟩ := h
      exact ha
  | t :: v :: rest =>
    simp only [searchOptStep] at h
    split_ifs at h with h1 h2
    · simp only [Option.some.injEq, Prod.mk.injEq] at h
      obtain ⟨rfl, rfl⟩ := h
      rfl
    · simp only [Option.some.injEq, Prod.mk.injEq] at h
      obtain ⟨rfl, rfl⟩ := h
      exact ha
    · simp only [Option.some.injEq, Prod.mk.injEq] at h
      obtain ⟨rfl, rfl⟩ := h
      exact ha

/-- Claim C1: the claim states that the query command invoked with no further
tokens builds a filter with zero fields and submits it to the store rather
than printing usage. The code violates this: the query branch of main
requires argc at least 3 (ndb.c line 190), so argv = [ndb, query] falls
through the dispatch chain to usage() and main exits 1 — contradicting the
program's own usage text, which displays every query argument as optional.
The builder half of the claim is accurate: an empty token stream does yield
an empty, valid filter, as the second conjunct shows. -/
theorem claim_C1 :
    dispatch ["ndb", "query"] = Cmd.usage ∧ queryFilter [] = some [] :=
  ⟨rfl, rfl⟩

/-- Claim C2 counterexample: the claim predicts that with the tokens
[foo, -k, 1] the -k group after the unknown token is still processed into the
filter (one KINDS field); the code never consumes the unknown token, so the
scan stalls on it and the submitted filter is empty. -/
theorem claim_C2_counterexample : queryFilter ["foo", "-k", "1"] = some [] := by
  unfold queryFilter
  rw [scanLoop_unknown_stall 100 initScanState ("foo") ["-k", "1"]
    (by decide) (by decide) (by decide) (by decide)]
  rfl

/-- Claim C2 (amended): during query-token scanning a token that is none of
-k, -l, -u, -t is ignored but never consumed: only the loop's iteration
counter advances, so the scan stalls on the unknown token until the
100-iteration budget is exhausted; no later token — including valid flag
groups — is processed, and the scan returns the state (hence the fields built
before the unknown token) unchanged. -/
theorem claim_C2 (st : ScanState) (u : String) (rest : List String)
    (h1 : u ≠ "-k") (h2 : u ≠ "-l") (h3 : u ≠ "-u") (h4 : u ≠ "-t") :
    scanLoop 100 st (u :: rest) = some st :=
  scanLoop_unknown_stall 100 st u rest h1 h2 h3 h4

/-- Witness for claim C2: the amended theorem applied to the concrete stalled
scan of [foo, -k, 1]. -/
theorem claim_C2_witness :
    scanLoop 100 initScanState ["foo", "-k", "1"] = some initScanState :=
  claim_C2 initScanState ("foo") ["-k", "1"]
    (by decide) (by decide) (by decide) (by decide)

/-- Claim C3: a run of consecutive -k groups (within the loop's 100-group
budget) produces exactly one KINDS field whose elements are the parsed
integers in input order; repeated -k does not close and reopen the field. -/
theorem claim_C3 (vs : List String) (hne : vs ≠ []) (hlen : vs.length ≤ 100) :
    queryFilter (kTokens vs)
      = some [⟨FieldKind.kinds, none, vs.map fun v => Elem.int (atoll v)⟩] := by
  cases vs with
  | nil => exact absurd rfl hne
  | cons v vs =>
    unfold queryFilter
    rw [kTokens, show (100 : Nat) = 99 + 1 from rfl]
    unfold scanLoop
    rw [if_pos rfl]
    have hk0 : stepK initScanState v
        = ⟨⟨[], some ⟨FieldKind.kinds, none, [Elem.int (atoll v)]⟩, true⟩,
            some FieldKind.kinds⟩ := rfl
    rw [hk0, scanLoop_kinds_run vs 99 [] none [Elem.int (atoll v)] true
      (by simp only [List.length_cons] at hlen; omega)]
    simp [finalClose, ndb_filter_end_field]

/-- Witness for claim C3: the run -k 1 -k 2 -k 3 yields the single KINDS
field [1, 2, 3]. -/
theorem claim_C3_witness :
    queryFilter (kTokens ["1", "2", "3"])
      = some [⟨FieldKind.kinds, none, [Elem.int 1, Elem.int 2, Elem.int 3]⟩] :=
  claim_C3 ["1", "2", "3"] (by decide) (by decide)

/-- Claim C4: field exclusivity. The builder holds at most one open field at
any instant by construction (opened is an Option), and okExcl is cleared by
start_field and start_tag_field whenever a field is already open and is never
reset to true; a true flag after the whole scan (and still after the
defensive close) therefore certifies that no start call occurred while
another field was open at any point of the run, for every token sequence. -/
theorem claim_C4 (ts : List String) (st' : ScanState)
    (h : scanLoop 100 initScanState ts = some st') :
    st'.builder.okExcl = true ∧ (finalClose st').okExcl = true := by
  have hg := scanLoop_good 100 ts initScanState st' initScanState_good h
  refine ⟨hg.2, ?_⟩
  unfold finalClose
  split_ifs
  · rw [end_field_okExcl]
    exact hg.2
  · exact hg.2

/-- Witness for claim C4 at the concrete token list [-k, 1, -l, 2]. -/
theorem claim_C4_witness :
    ∃ st', scanLoop 100 initScanState ["-k", "1", "-l", "2"] = some st'
      ∧ st'.builder.okExcl = true ∧ (finalClose st').okExcl = true :=
  ⟨_, rfl, claim_C4 ["-k", "1", "-l", "2"] _ rfl⟩

/-- Claim C5: at submission no field is open. After any completed scan, a
still-open field can only be a KINDS field (every other flag group
self-closes), and the defensive close before ndb_query leaves the builder
with no open field in every case. -/
theorem claim_C5 (ts : List String) (st' : ScanState)
    (h : scanLoop 100 initScanState ts = some st') :
    (st'.builder.opened = none
      ∨ ∃ o, st'.builder.opened = some o ∧ o.kind = FieldKind.kinds)
    ∧ (finalClose st').opened = none := by
  have hg := scanLoop_good 100 ts initScanState st' initScanState_good h
  rcases hg.1 with ⟨hop, hcf⟩ | ⟨o, hop, hk, hcf⟩
  · refine ⟨Or.inl hop, ?_⟩
    unfold finalClose
    split_ifs
    · exact end_field_opened_none _ hop
    · exact hop
  · refine ⟨Or.inr ⟨o, hop, hk⟩, ?_⟩
    unfold finalClose
    rw [if_pos (by simp [hcf]), end_field_some hop]

/-- Witness for claim C5 at the concrete token list [-k, 1], which leaves a
KINDS field open for the defensive close to flush. -/
theorem claim_C5_witness :
    ∃ st', scanLoop 100 initScanState ["-k", "1"] = some st'
      ∧ ((st'.builder.opened = none
          ∨ ∃ o, st'.builder.opened = some o ∧ o.kind = FieldKind.kinds)
        ∧ (finalClose st').opened = none) :=
  ⟨_, rfl, claim_C5 ["-k", "1"] _ rfl⟩

/-- Claim C6: self-closing fields. A -l group opens LIMIT, appends its single
integer and closes the field within the same token pair (no field is left
open and the LIMIT field is already in the field list); a subsequent -k group
then opens a fresh KINDS field with no explicit close needed, and the
resulting filter is the LIMIT field followed by the new KINDS field. -/
theorem claim_C6 (lv kv : String) :
    (stepL initScanState lv).builder.opened = none
    ∧ (stepL initScanState lv).builder.fields
      = [⟨FieldKind.limit, none, [Elem.int (atol lv)]⟩]
    ∧ queryFilter ["-l", lv, "-k", kv]
      = some [⟨FieldKind.limit, none, [Elem.int (atol lv)]⟩,
          ⟨FieldKind.kinds, none, [Elem.int (atoll kv)]⟩] :=
  ⟨rfl, rfl, rfl⟩

/-- Witness for claim C6 at the concrete tokens -l 10 -k 5. -/
theorem claim_C6_witness :
    (stepL initScanState ("10")).builder.opened = none
    ∧ (stepL initScanState ("10")).builder.fields
      = [⟨FieldKind.limit, none, [Elem.int 10]⟩]
    ∧ queryFilter ["-l", "10", "-k", "5"]
      = some [⟨FieldKind.limit, none, [Elem.int 10]⟩,
          ⟨FieldKind.kinds, none, [Elem.int 5]⟩] :=
  claim_C6 ("10") ("5")

/-- Claim C7: omitting --oldest-first anywhere in the scanned tokens leaves
the text-search ordering at the default descending; supplying it among the
leading option tokens (as the first option, or after a --limit pair) sets the
ordering to ascending. -/
theorem claim_C7 :
    (∀ (ts : List String) (c : ndb_text_search_config) (r : List String),
      "--oldest-first" ∉ ts → parseSearchConfig ts = some (c, r) →
      c.order = NdbOrder.descending)
    ∧ (∀ (rest : List String) (c : ndb_text_search_config) (r : List String),
      parseSearchConfig ("--oldest-first" :: rest) = some (c, r) →
      c.order = NdbOrder.ascending)
    ∧ (∀ (v : String) (rest : List String) (c : ndb_text_search_config)
        (r : List String),
      parseSearchConfig ("--limit" :: v :: "--oldest-first" :: rest) = some (c, r) →
      c.order = NdbOrder.ascending) := by
  refine ⟨?_, ?_, ?_⟩
  · intro ts c r hmem h
    unfold parseSearchConfig at h
    cases h1 : searchOptStep ndb_default_text_search_config ts with
    | none =>
      rw [h1] at h
      exact absurd h (by simp)
    | some p =>
      rw [h1] at h
      obtain ⟨h2, h3⟩ := searchOptStep_no_oldest hmem h1
      have hmem2 : "--oldest-first" ∉ p.2 := fun hx => hmem (h3 hx)
      obtain ⟨h4, -⟩ := searchOptStep_no_oldest hmem2 h
      rw [h4, h2]
      rfl
  · intro rest c r h
    unfold parseSearchConfig at h
    have h1 : searchOptStep ndb_default_text_search_config ("--oldest-first" :: rest)
        = some (ndb_text_search_config_set_order ndb_default_text_search_config
            NdbOrder.ascending, rest) := by
      match rest with
      | [] => rfl
      | x :: xs => rfl
    rw [h1] at h
    exact searchOptStep_order_mono h rfl
  · intro v rest c r h
    have h3 : searchOptStep
        (ndb_text_search_config_set_limit ndb_default_text_search_config (atoi v))
        ("--oldest-first" :: rest) = some (c, r) := h
    have h2 : searchOptStep
        (ndb_text_search_config_set_limit ndb_default_text_search_config (atoi v))
        ("--oldest-first" :: rest)
        = some (ndb_text_search_config_set_order
            (ndb_text_search_config_set_limit ndb_default_text_search_config (atoi v))
            NdbOrder.ascending, rest) := by
      match rest with
      | [] => rfl
      | x :: xs => rfl
    rw [h2] at h3
    simp only [Option.some.injEq, Prod.mk.injEq] at h3
    obtain ⟨rfl, rfl⟩ := h3
    rfl

/-- Witness for claim C7: a search with no options keeps descending order and
one with a leading --oldest-first gets ascending order. -/
theorem claim_C7_witness :
    ("--oldest-first" ∉ (["hello"] : List String))
    ∧ parseSearchConfig ["hello"]
      = some (⟨NdbOrder.descending, none⟩, ["hello"])
    ∧ (⟨NdbOrder.descending, none⟩ : ndb_text_search_config).order
      = NdbOrder.descending
    ∧ parseSearchConfig ["--oldest-first", "hello"]
      = some (⟨NdbOrder.ascending, none⟩, ["hello"])
    ∧ (⟨NdbOrder.ascending, none⟩ : ndb_text_search_config).order
      = NdbOrder.ascending :=
  ⟨by decide, rfl, claim_C7.1 ["hello"] _ _ (by decide) rfl, rfl,
    claim_C7.2.1 ["hello"] _ _ rfl⟩

/-- Claim C8: in the stats report's kinds section, a category with count 0 is
never printed, every category with nonzero count is printed (with its
counters, at its index), and the trailing other line appears exactly when the
other-kinds count is nonzero. -/
theorem claim_C8 (ck : List ndb_stat_counts) (other : ndb_stat_counts) :
    (∀ (i : Nat) (c : ndb_stat_counts), (i, c) ∈ kindsSection ck → c.count ≠ 0)
    ∧ (∀ (i : Nat) (h : i < ck.length), (ck.get ⟨i, h⟩).count ≠ 0 →
        (i, ck.get ⟨i, h⟩) ∈ kindsSection ck)
    ∧ ((otherLine other).isSome ↔ other.count ≠ 0) := by
  refine ⟨?_, ?_, ?_⟩
  · intro i c h
    exact kindsSectionAux_count_ne ck 0 i c h
  · intro i h hc
    have hx := kindsSectionAux_mem ck 0 i h hc
    simpa using hx
  · unfold otherLine
    split_ifs with h <;> simp [h]

/-- Witness for claim C8: in the list of counters [zero, nonzero] the nonzero
entry is printed at index 1, and a zero other line is suppressed. -/
theorem claim_C8_witness :
    ((1 : Nat), (⟨2, 3, 4⟩ : ndb_stat_counts)) ∈ kindsSection [⟨0, 0, 0⟩, ⟨2, 3, 4⟩]
    ∧ ((otherLine ⟨0, 5, 6⟩).isSome ↔ (0 : Nat) ≠ 0) :=
  ⟨(claim_C8 [⟨0, 0, 0⟩, ⟨2, 3, 4⟩] ⟨0, 5, 6⟩).2.1 1 (by decide) (by decide),
    (claim_C8 [⟨0, 0, 0⟩, ⟨2, 3, 4⟩] ⟨0, 5, 6⟩).2.2⟩

/-- Claim C9: beyond the four documented commands, main also accepts
print-search-keys, print-kind-keys and print-tag-keys, each with no further
arguments; for each it opens a read transaction, calls the matching
key-printing collaborator, closes the transaction and exits 0, instead of
treating them as unknown commands (usage, exit 1). -/
theorem claim_C9 :
    dispatch ["ndb", "print-search-keys"] = Cmd.printSearchKeys
    ∧ dispatch ["ndb", "print-kind-keys"] = Cmd.printKindKeys
    ∧ dispatch ["ndb", "print-tag-keys"] = Cmd.printTagKeys
    ∧ printKeysRun Cmd.printSearchKeys
      = some ([Eff.beginTxn, Eff.printSearchKeysCall, Eff.endTxn, Eff.destroyCall], 0)
    ∧ printKeysRun Cmd.printKindKeys
      = some ([Eff.beginTxn, Eff.printKindKeysCall, Eff.endTxn, Eff.destroyCall], 0)
    ∧ printKeysRun Cmd.printTagKeys
      = some ([Eff.beginTxn, Eff.printTagKeysCall, Eff.endTxn, Eff.destroyCall], 0)
    ∧ printKeysRun Cmd.usage = some ([], 1) :=
  ⟨rfl, rfl, rfl, rfl, rfl, rfl, rfl⟩

/-- Claim C10: after a -l group the open-field marker current_field stays
LIMIT although the LIMIT field is already closed; a following -l or -u group
(and the post-scan defensive close) therefore invokes end_field while no
field is open, which is a no-op, and the resulting filter is exactly the
fields built so far (plus, for a following group, its own new field). -/
theorem claim_C10 (st : ScanState) (v w : String) (h : GoodState st) :
    (stepL st v).current_field = some FieldKind.limit
    ∧ (stepL st v).builder.opened = none
    ∧ ndb_filter_end_field (stepL st v).builder = (stepL st v).builder
    ∧ (finalClose (stepL st v)).fields = (stepL st v).builder.fields
    ∧ (stepU (stepL st v) w).builder.fields
      = (stepL st v).builder.fields
        ++ [⟨FieldKind.untilK, none, [Elem.int (atoll w)]⟩]
    ∧ (stepL (stepL st v) w).builder.fields
      = (stepL st v).builder.fields
        ++ [⟨FieldKind.limit, none, [Elem.int (atol w)]⟩] := by
  obtain ⟨hop, hcf, hok, hfl⟩ := stepL_spec v h
  have hg1 : GoodState (stepL st v) := stepL_good v h
  have hcl : (closeOpenField (stepL st v)).builder.fields
      = (stepL st v).builder.fields :=
    closeOpenField_fields_of_opened_none hop
  refine ⟨hcf, hop, end_field_none hop, ?_, ?_, ?_⟩
  · unfold finalClose
    rw [if_pos (by simp [hcf]), end_field_none hop]
  · obtain ⟨-, -, -, hfU⟩ := stepU_spec w hg1
    rw [hfU, hcl]
  · obtain ⟨-, -, -, hfL⟩ := stepL_spec w hg1
    rw [hfL, hcl]

/-- Witness for claim C10 at the concrete groups -l 2 then -u 7 / -l 7 from
the initial scan state. -/
theorem claim_C10_witness :
    (stepL initScanState ("2")).current_field = some FieldKind.limit
    ∧ (stepL initScanState ("2")).builder.opened = none
    ∧ ndb_filter_end_field (stepL initScanState ("2")).builder
      = (stepL initScanState ("2")).builder
    ∧ (finalClose (stepL initScanState ("2"))).fields
      = (stepL initScanState ("2")).builder.fields
    ∧ (stepU (stepL initScanState ("2")) ("7")).builder.fields
      = (stepL initScanState ("2")).builder.fields
        ++ [⟨FieldKind.untilK, none, [Elem.int (atoll ("7"))]⟩]
    ∧ (stepL (stepL initScanState ("2")) ("7")).builder.fields
      = (stepL initScanState ("2")).builder.fields
        ++ [⟨FieldKind.limit, none, [Elem.int (atol ("7"))]⟩] :=
  claim_C10 initScanState ("2") ("7") ⟨Or.inl ⟨rfl, Or.inl rfl⟩, rfl⟩

end Ndb

